import Mathlib

/-!
Shallow embedding of the `logger` crate (`src/lib.rs`): a sink adapter for the
`log` facade.  The embedding models:

* the per-destination line formatting done by `Logger::log`,
* the level → (ANSI color, 3-letter tag) table,
* the thread-label resolution (`thread::current().name().unwrap_or("unknown")`),
* poison recovery in `Logger::inner` (`clear_poison` + retry),
* `Log::flush` (a `flush().expect(..)` on the custom writer, no-op otherwise),
* the facade registration protocol (`log::set_logger` + `expect` in `init_stdout`),
* the public operation set (`init_stdout`, `swap`, `log`, `flush`) as a state
  machine, and
* an interleaving semantics for N threads logging concurrently through the
  mutex-guarded destination.

Panics (`expect`) are modelled as `Except.error` results.
-/

namespace LoggerLib

/-- Severity levels of the `log` facade (`log::Level`). -/
inductive Level where
  | Info
  | Debug
  | Error
  | Warn
  | Trace
deriving DecidableEq, Repr

/-- The destination variants of the private `Inner` enum in `src/lib.rs`:
`Stdout`, `Stderr`, and `Other(Box<dyn io::Write + Send>)` (the boxed custom
writer; the bytes it receives are tracked separately by the models below). -/
inductive Inner where
  | Stdout
  | Stderr
  | Other
deriving DecidableEq, Repr

/-- The `RESET_COLOR` constant of `Logger::log`. -/
def RESET_COLOR : String := "\x1b[0m"

/-- The `match record.level()` table at the top of `Logger::log`: each level is
mapped to an ANSI color escape (97 = bright white, 36 = cyan, 31 = red,
33 = yellow) and a 3-letter tag. -/
def colorLabel : Level → String × String
  | .Info => ("\x1b[97m", "INF")
  | .Debug => ("\x1b[36m", "DBG")
  | .Error => ("\x1b[31m", "ERR")
  | .Warn => ("\x1b[33m", "WRN")
  | .Trace => ("\x1b[97m", "TRC")

/-- The single line `Logger::log` composes and writes, one formula per arm of
its `match inner_ref`:

* `Inner::Stdout`: `println!("{}{color} {name} [{label}]{RESET_COLOR} {}", time, args)`
* `Inner::Other`:  `writeln!(mutex, "{} {name} [{label}] {}", time, args)`
* `Inner::Stderr`: `eprintln!("{}{color} {name} [{label}] {RESET_COLOR} {}", time, args)`

`println!`/`eprintln!`/`writeln!` all terminate the line with one `\n`. -/
def logLine (dest : Inner) (time name : String) (lv : Level) (msg : String) : String :=
  let color := (colorLabel lv).1
  let tag := (colorLabel lv).2
  match dest with
  | .Stdout => time ++ color ++ " " ++ name ++ " [" ++ tag ++ "]" ++ RESET_COLOR ++ " " ++ msg ++ "\n"
  | .Other => time ++ " " ++ name ++ " [" ++ tag ++ "] " ++ msg ++ "\n"
  | .Stderr => time ++ color ++ " " ++ name ++ " [" ++ tag ++ "] " ++ RESET_COLOR ++ " " ++ msg ++ "\n"

/-- The line format as the spec's wire contract states it, for every
destination: `<time><color> <thread-label> [<level-tag>]<reset-color> <message>`
plus a single newline, with escapes emitted unconditionally.  Kept separate
from `logLine` so the two can be compared. -/
def specLine (time name : String) (lv : Level) (msg : String) : String :=
  time ++ (colorLabel lv).1 ++ " " ++ name ++ " [" ++ (colorLabel lv).2 ++ "]" ++
    RESET_COLOR ++ " " ++ msg ++ "\n"

/-- The identity of a thread as `Logger::log` can observe it:
`std::thread::current().name()` is an `Option<&str>`, and every thread also has
a `ThreadId`, modelled as a `Nat`. -/
structure ThreadInfo where
  name : Option String
  id : Nat
deriving DecidableEq, Repr

/-- The thread-label resolution of `Logger::log`:
`current.name().unwrap_or("unknown")`. -/
def threadLabel (t : ThreadInfo) : String :=
  t.name.getD "unknown"

/-- The thread-label rule as the claim states it: a named thread uses its name,
an unnamed thread gets a fallback derived from its numeric identity
(`id <n>`).  Kept separate from `threadLabel` so the two can be compared. -/
def threadLabelSpec (t : ThreadInfo) : String :=
  match t.name with
  | some n => n
  | none => "id " ++ toString t.id

/-- One acquisition attempt on the `Mutex<Inner>`: `lock()` errors iff the
mutex is poisoned (the `PoisonError` still lets the caller reach the data, but
`Logger::inner` discards it and retries). -/
def lockResult (poisoned : Bool) : Except Unit Unit :=
  if poisoned then .error () else .ok ()

/-- `Logger::inner`, sequentially: on `Err`, `clear_poison` and call `inner`
again; the retry sees an unpoisoned mutex, so the source's recursion unrolls
exactly once here.  Returns (acquired?, poisoned flag after the call). -/
def inner (poisoned : Bool) : Bool × Bool :=
  match lockResult poisoned with
  | .ok _ => (true, poisoned)
  | .error _ =>
    match lockResult false with
    | .ok _ => (true, false)
    | .error _ => (false, false)

/-- `Logger::log`, sequentially: acquire the guard through `inner` (recovering
from poison), then write the composed line.  Returns the poison flag after the
call and the bytes written to the destination. -/
def log (poisoned : Bool) (dest : Inner) (time name : String) (lv : Level)
    (msg : String) : Bool × String :=
  let acq := inner poisoned
  if acq.1 then (acq.2, logLine dest time name lv msg) else (acq.2, "")

/-- `Log::flush` for `Logger`: a no-op unless the destination is
`Inner::Other`, in which case the custom writer's own flush runs and its result
meets `.expect("Cannot flush the logger")` — an `io::Error` becomes a panic.
`writerFlush` is the custom writer's flush outcome; `.error` models the
panic. -/
def flush (dest : Inner) (writerFlush : Except String Unit) : Except String Unit :=
  match dest with
  | .Other =>
    match writerFlush with
    | .ok _ => .ok ()
    | .error _ => .error "Cannot flush the logger"
  | _ => .ok ()

/-- The global filter levels of the `log` facade (`log::LevelFilter`).  The
facade's maximum level starts at `Off`: nothing is enabled until someone calls
`log::set_max_level`. -/
inductive LevelFilter where
  | Off
  | Error
  | Warn
  | Info
  | Debug
  | Trace
deriving DecidableEq, Repr

/-- The `log` facade's process-wide mutable state: whether a logger has been
registered (`log::set_logger` consumed), and the global severity threshold
(`log::max_level`). -/
structure FacadeState where
  registered : Bool
  maxLevel : LevelFilter
deriving DecidableEq, Repr

/-- The facade state at process start: no logger registered, maximum level
`Off`. -/
def initialFacade : FacadeState :=
  { registered := false, maxLevel := .Off }

/-- `log::set_logger`: succeeds and records the registration iff no logger was
registered before; otherwise returns a `SetLoggerError`. -/
def set_logger (s : FacadeState) : Except Unit FacadeState :=
  if s.registered then .error () else .ok { s with registered := true }

/-- `init_stdout` from `src/lib.rs`:
`log::set_logger(&*LOGGER).expect("Cannot initialize the logger!")`.
The `expect` turns the `SetLoggerError` into a panic, modelled as
`Except.error` carrying the panic message.  Nothing else happens: in
particular `log::set_max_level` is not called. -/
def init_stdout (s : FacadeState) : Except String FacadeState :=
  match set_logger s with
  | .ok s1 => .ok s1
  | .error _ => .error "Cannot initialize the logger!"

/-- Observable I/O effects on destinations: bytes written to a destination, or
a flush of a destination's writer. -/
inductive Ev where
  | wrote (dest : Inner) (bytes : String)
  | flushedDest (dest : Inner)
deriving DecidableEq, Repr

/-- The process-wide state reachable through the crate's public interface: the
facade registration flag, the poison flag of the `LOGGER` mutex, the active
destination held by the static `LOGGER` (initialized by `Logger::stdout()`),
and the trace of I/O effects performed so far. -/
structure SysState where
  registered : Bool
  poisoned : Bool
  dest : Inner
  events : List Ev
deriving DecidableEq, Repr

/-- The state at process start: `LOGGER` holds `Inner::Stdout`, nothing is
registered, nothing written. -/
def initialSys : SysState :=
  { registered := false, poisoned := false, dest := .Stdout, events := [] }

/-- The crate's public operations: `init_stdout()`, `swap(buffer)` (the buffer
itself carries no observable state here), and the `Log` methods `log` and
`flush` reached through the facade. -/
inductive Op where
  | initStdout
  | swapDest
  | logRec (time name : String) (lv : Level) (msg : String)
  | flushOp
deriving DecidableEq, Repr

/-- `swap` from `src/lib.rs`: `let mut inner = LOGGER.inner();` (acquiring the
guard clears any poison) then `*inner = Inner::Other(Box::new(buffer));`.
No event is emitted: nothing is written, flushed or closed. -/
def swapDest (s : SysState) : SysState :=
  { s with poisoned := false, dest := .Other }

/-- One public operation applied to the process state.  `none` models a panic
(second `init_stdout`).  `logRec` and `flushOp` go through `Logger::inner`
(clearing poison) and append their I/O effects; their destination I/O is
assumed to succeed (a failing write or flush would panic, truncating the
trace). -/
def applyOp (s : SysState) : Op → Option SysState
  | .initStdout =>
    match set_logger { registered := s.registered, maxLevel := .Off } with
    | .ok _ => some { s with registered := true }
    | .error _ => none
  | .swapDest => some (swapDest s)
  | .logRec time name lv msg =>
    some { s with poisoned := false,
                  events := s.events ++ [.wrote s.dest (logLine s.dest time name lv msg)] }
  | .flushOp =>
    some { s with poisoned := false,
                  events := s.events ++
                    match s.dest with
                    | .Other => [.flushedDest .Other]
                    | _ => [] }

/-- A sequence of public operations, stopping at the first panic. -/
def runOps (s : SysState) : List Op → Option SysState
  | [] => some s
  | op :: rest =>
    match applyOp s op with
    | some s1 => runOps s1 rest
    | none => none

/-! ### Interleaving model of concurrent logging

`Logger::log` holds the `MutexGuard` across the whole `println!`/`writeln!`,
so a thread acquires the mutex, emits its entire composed line (possibly in
several chunks — modelled at the finest granularity, one `Char` at a time),
and only then releases.  A scheduler picks which thread steps next; a thread
whose acquisition attempt finds the mutex held simply does not advance. -/

/-- Where one logging thread is: before acquisition (holding its composed
line), inside the critical section with the remaining bytes to write, or
finished. -/
inductive TStatus where
  | idle (line : List Char)
  | writing (rem : List Char)
  | done
deriving DecidableEq, Repr

/-- State of `n` threads logging through one `Logger`: who holds the mutex,
the bytes the destination has received, and each thread's status. -/
structure Conc (n : Nat) where
  lock : Option (Fin n)
  out : List Char
  thr : Fin n → TStatus

/-- All threads about to log their lines; mutex free, destination empty. -/
def initConc {n : Nat} (lines : Fin n → List Char) : Conc n :=
  { lock := none, out := [], thr := fun i => .idle (lines i) }

/-- One scheduler step granting thread `i` a chance to act: acquire the mutex
if free, write the next byte of its line while holding it, or release after
the final byte.  A thread that cannot act leaves the state unchanged. -/
def threadStep {n : Nat} (s : Conc n) (i : Fin n) : Conc n :=
  match s.thr i with
  | .idle line =>
    match s.lock with
    | none => { s with lock := some i, thr := Function.update s.thr i (.writing line) }
    | some _ => s
  | .writing (c :: rem) =>
    if s.lock = some i then
      { s with out := s.out ++ [c], thr := Function.update s.thr i (.writing rem) }
    else s
  | .writing [] =>
    if s.lock = some i then
      { s with lock := none, thr := Function.update s.thr i .done }
    else s
  | .done => s

/-- Run a whole schedule (a list of thread choices). -/
def runConc {n : Nat} (s : Conc n) : List (Fin n) → Conc n
  | [] => s
  | i :: rest => runConc (threadStep s i) rest

/-- The mutual-exclusion invariant: idle threads still hold their original
lines; the finished threads are exactly a duplicate-free list `l`, and either
the mutex is free, nobody is mid-write and the output is the concatenation of
the finished lines, or exactly the mutex holder is mid-write and the output is
the finished lines followed by the prefix it has emitted so far. -/
def Inv {n : Nat} (lines : Fin n → List Char) (s : Conc n) : Prop :=
  (∀ i line, s.thr i = .idle line → line = lines i) ∧
  ∃ l : List (Fin n), l.Nodup ∧ (∀ i, s.thr i = .done ↔ i ∈ l) ∧
    ((s.lock = none ∧ (∀ i rem, s.thr i ≠ .writing rem) ∧
        s.out = (l.map lines).flatten) ∨
     (∃ i pre rem, s.lock = some i ∧ s.thr i = .writing rem ∧
        lines i = pre ++ rem ∧ s.out = (l.map lines).flatten ++ pre ∧
        ∀ j rem1, s.thr j = .writing rem1 → j = i))

/-! ## Claims -/

/-- C1, counterexample: the composed line does not follow the spec's single
format on every destination.  On the Custom destination (`Inner::Other`) the
code emits no color escapes at all, and on `Inner::Stderr` an extra space
appears between the closing bracket and the reset escape. -/
theorem logLine_not_uniform_counterexample :
    logLine .Other "00:00:00" "main" .Info "hi" = "00:00:00 main [INF] hi\n" ∧
    logLine .Other "00:00:00" "main" .Info "hi" ≠ specLine "00:00:00" "main" .Info "hi" ∧
    logLine .Stderr "00:00:00" "main" .Info "hi" ≠ specLine "00:00:00" "main" .Info "hi" := by
  refine ⟨rfl, by decide, by decide⟩

/-- C1, amended: the line `Logger::log` writes is
`<time><color> <label> [<tag>]<reset> <message>` plus one newline only on the
Console destination, where it matches the spec's format exactly; on
ErrorConsole one extra space separates the bracket from the reset escape, and
on the Custom destination the line carries no color or reset escapes:
`<time> <label> [<tag>] <message>` plus one newline. -/
theorem logLine_per_destination (time name msg : String) (lv : Level) :
    logLine .Stdout time name lv msg = specLine time name lv msg ∧
    logLine .Stderr time name lv msg =
      time ++ (colorLabel lv).1 ++ " " ++ name ++ " [" ++ (colorLabel lv).2 ++ "] " ++
        RESET_COLOR ++ " " ++ msg ++ "\n" ∧
    logLine .Other time name lv msg =
      time ++ " " ++ name ++ " [" ++ (colorLabel lv).2 ++ "] " ++ msg ++ "\n" :=
  ⟨rfl, rfl, rfl⟩

/-- C2: acquiring the guard through `Logger::inner` never fails, a poisoned
mutex is cleared by the acquisition, and the very next `log` call after a
poisoning event completes normally, producing its full line and leaving the
mutex unpoisoned. -/
theorem inner_recovers_from_poison (p : Bool) (dest : Inner) (time name msg : String)
    (lv : Level) :
    (inner p).1 = true ∧ inner true = (true, false) ∧
    log true dest time name lv msg = (false, logLine dest time name lv msg) := by
  cases p <;> exact ⟨rfl, rfl, rfl⟩

/-- C3: the level-to-(color, tag) table of `Logger::log` is exactly
Info → bright white (ESC[97m) / INF, Debug → cyan (ESC[36m) / DBG,
Error → red (ESC[31m) / ERR, Warn → yellow (ESC[33m) / WRN,
Trace → bright white (ESC[97m) / TRC, tags pairwise distinct (no
cross-mapping), and the mapping takes only the level, never the message. -/
theorem colorLabel_mapping :
    colorLabel .Info = ("\x1b[97m", "INF") ∧
    colorLabel .Debug = ("\x1b[36m", "DBG") ∧
    colorLabel .Error = ("\x1b[31m", "ERR") ∧
    colorLabel .Warn = ("\x1b[33m", "WRN") ∧
    colorLabel .Trace = ("\x1b[97m", "TRC") ∧
    ∀ a b : Level, (colorLabel a).2 = (colorLabel b).2 → a = b := by
  refine ⟨rfl, rfl, rfl, rfl, rfl, fun a b => ?_⟩
  cases a <;> cases b <;> simp <;> decide

/-- C4, counterexample: an unnamed thread with a perfectly good numeric
identity still gets the literal label `unknown`, not a label derived from its
identity — `Logger::log` runs `name().unwrap_or("unknown")` and never looks at
the thread id. -/
theorem threadLabel_unnamed_counterexample :
    threadLabel ⟨none, 7⟩ = "unknown" ∧
    threadLabelSpec ⟨none, 7⟩ = "id 7" ∧
    ¬ (∀ t : ThreadInfo, t.name = none → threadLabel t = threadLabelSpec t) :=
  ⟨rfl, rfl, fun h => absurd (h ⟨none, 7⟩ rfl) (by decide)⟩

/-- C4, amended: a named thread's label is exactly its name, with no
truncation, and an unnamed thread's label is always the literal string
`unknown`, regardless of the thread's numeric identity. -/
theorem threadLabel_name_or_unknown (nm : String) (i : Nat) :
    threadLabel ⟨some nm, i⟩ = nm ∧ threadLabel ⟨none, i⟩ = "unknown" :=
  ⟨rfl, rfl⟩

/-- C5, counterexample: a successful `init_stdout` from the pristine facade
state leaves the maximum level at `Off`, so it does not set the global
severity threshold to accept everything down to Trace. -/
theorem init_stdout_threshold_counterexample :
    init_stdout initialFacade = .ok { registered := true, maxLevel := .Off } ∧
    ¬ (∀ s s1 : FacadeState, init_stdout s = .ok s1 →
        s1.registered = true ∧ s1.maxLevel = .Trace) := by
  refine ⟨rfl, fun h => ?_⟩
  have h2 := (h initialFacade { registered := true, maxLevel := .Off } rfl).2
  exact absurd h2 (by decide)

/-- C5, amended: a successful `init_stdout` registers the adapter as the
process's single active logger but leaves the global severity threshold
exactly as it was; the caller must set it separately (as the crate's example
does with `log::set_max_level`). -/
theorem init_stdout_registers_only (s s1 : FacadeState) (h : init_stdout s = .ok s1) :
    s1.registered = true ∧ s1.maxLevel = s.maxLevel := by
  cases hreg : s.registered with
  | true => simp [init_stdout, set_logger, hreg] at h
  | false =>
    simp [init_stdout, set_logger, hreg] at h
    rw [← h]
    exact ⟨rfl, rfl⟩

/-- C5, witness: the amended theorem applied to the pristine facade state. -/
theorem init_stdout_registers_only_witness :
    (FacadeState.mk true .Off).registered = true ∧
    (FacadeState.mk true .Off).maxLevel = initialFacade.maxLevel :=
  init_stdout_registers_only initialFacade (FacadeState.mk true .Off) rfl

/-- C6: once one `init_stdout` has succeeded, calling it again panics
immediately at the call site with the message of its `expect` — it neither
succeeds nor is ignored or deferred. -/
theorem init_stdout_twice_panics (s s1 : FacadeState) (h : init_stdout s = .ok s1) :
    init_stdout s1 = .error "Cannot initialize the logger!" := by
  cases hreg : s.registered with
  | true => simp [init_stdout, set_logger, hreg] at h
  | false =>
    simp [init_stdout, set_logger, hreg] at h
    rw [← h]
    rfl

/-- C6, witness: the second call after a successful first one, concretely. -/
theorem init_stdout_twice_panics_witness :
    init_stdout (FacadeState.mk true .Off) = .error "Cannot initialize the logger!" :=
  init_stdout_twice_panics initialFacade (FacadeState.mk true .Off) rfl

/-- C7, counterexample: a failing flush of the Custom destination is not
swallowed — `Logger::flush` runs `.expect("Cannot flush the logger")`, which
panics instead of returning normally. -/
theorem flush_error_panics_counterexample :
    flush .Other (.error "disk full") = .error "Cannot flush the logger" ∧
    flush .Other (.error "disk full") ≠ .ok () :=
  ⟨rfl, fun h => nomatch h⟩

/-- C7, amended: `flush` is a no-op on the Console and ErrorConsole
destinations and forwards to the custom writer's flush on the Custom
destination — but a failing flush there terminates the process (panic with
`Cannot flush the logger`) rather than being ignored best-effort. -/
theorem flush_per_destination (r : Except String Unit) (e : String) :
    flush .Stdout r = .ok () ∧ flush .Stderr r = .ok () ∧
    flush .Other (.ok ()) = .ok () ∧
    flush .Other (.error e) = .error "Cannot flush the logger" :=
  ⟨rfl, rfl, rfl, rfl⟩

/-- C8: `swap` makes the Custom destination active, leaves the registration
state untouched, emits no I/O effect at all (so it neither writes to the new
destination nor flushes the previous one), and the next `log` after it writes
its line to the new Custom destination. -/
theorem swap_frame (s : SysState) (time name msg : String) (lv : Level) :
    (swapDest s).dest = .Other ∧
    (swapDest s).registered = s.registered ∧
    (swapDest s).events = s.events ∧
    (applyOp (swapDest s) (.logRec time name lv msg)).map SysState.events =
      some (s.events ++ [.wrote .Other (logLine .Other time name lv msg)]) :=
  ⟨rfl, rfl, rfl, rfl⟩

/-- Running any suffix of public operations from a state whose destination is
the Custom one keeps the destination Custom: no operation ever stores
`Inner::Stdout` or `Inner::Stderr` back into the holder. -/
theorem runOps_dest_other (ops : List Op) : ∀ s s2 : SysState, s.dest = .Other →
    runOps s ops = some s2 → s2.dest = .Other := by
  induction ops with
  | nil =>
    intro s s2 hs h
    simp [runOps] at h
    rw [← h]
    exact hs
  | cons op rest ih =>
    intro s s2 hs h
    cases op with
    | initStdout =>
      cases hreg : s.registered with
      | true => simp [runOps, applyOp, set_logger, hreg] at h
      | false =>
        simp [runOps, applyOp, set_logger, hreg] at h
        refine ih _ _ ?_ h
        exact hs
    | swapDest =>
      simp [runOps, applyOp] at h
      exact ih _ _ rfl h
    | logRec time name lv msg =>
      simp [runOps, applyOp] at h
      refine ih _ _ ?_ h
      exact hs
    | flushOp =>
      simp [runOps, applyOp] at h
      refine ih _ _ ?_ h
      exact hs

/-- C10: after any `swap`, whatever sequence of public operations follows
(more swaps, a registration, log records, flushes), the active destination
remains the Custom (boxed writer) variant: the public interface has no
operation that restores Console or ErrorConsole. -/
theorem dest_custom_after_swap (s : SysState) (ops : List Op) (s2 : SysState)
    (h : runOps (swapDest s) ops = some s2) : s2.dest = .Other :=
  runOps_dest_other ops (swapDest s) s2 rfl h

/-- C10, witness: a concrete run from process start — swap, then register,
log a record and flush — ends with the Custom destination active. -/
theorem dest_custom_after_swap_witness :
    (SysState.mk true false .Other
      [Ev.wrote .Other (logLine .Other "00:00:00" "main" .Info "hi"),
       Ev.flushedDest .Other]).dest = .Other :=
  dest_custom_after_swap initialSys
    [Op.initStdout, Op.logRec "00:00:00" "main" .Info "hi", Op.flushOp] _ rfl

/-- The invariant holds in the initial state: no thread finished, mutex free,
destination empty. -/
theorem inv_initConc {n : Nat} (lines : Fin n → List Char) : Inv lines (initConc lines) := by
  refine ⟨fun i line h => ?_, [], List.nodup_nil, fun i => ?_,
    Or.inl ⟨rfl, fun i rem h => ?_, rfl⟩⟩
  · have h2 : TStatus.idle (lines i) = TStatus.idle line := h
    injection h2 with h3
    exact h3.symm
  · simp [initConc]
  · have h2 : TStatus.idle (lines i) = TStatus.writing rem := h
    exact absurd h2 (by simp)

/-- One scheduler step preserves the mutual-exclusion invariant. -/
theorem inv_threadStep {n : Nat} (lines : Fin n → List Char) (s : Conc n) (i : Fin n)
    (hinv : Inv lines s) : Inv lines (threadStep s i) := by
  obtain ⟨hidle, l, hnodup, hdone, hdisj⟩ := hinv
  cases hst : s.thr i with
  | idle line =>
    cases hlk : s.lock with
    | some k =>
      have hstep : threadStep s i = s := by
        simp [threadStep, hst, hlk]
      rw [hstep]
      exact ⟨hidle, l, hnodup, hdone, hdisj⟩
    | none =>
      have hline : line = lines i := hidle i line hst
      have hstep : threadStep s i =
          { s with lock := some i, thr := Function.update s.thr i (.writing line) } := by
        simp [threadStep, hst, hlk]
      rw [hstep]
      have hnotdone : i ∉ l := by
        intro hmem
        have hd := (hdone i).mpr hmem
        rw [hst] at hd
        exact absurd hd (by simp)
      have hnowrite : ∀ j rem, s.thr j ≠ .writing rem := by
        rcases hdisj with ⟨-, hw, -⟩ | ⟨j, pre, rem, hlkj, -⟩
        · exact hw
        · rw [hlk] at hlkj
          exact absurd hlkj (by simp)
      have hout : s.out = (l.map lines).flatten := by
        rcases hdisj with ⟨-, -, ho⟩ | ⟨j, pre, rem, hlkj, -⟩
        · exact ho
        · rw [hlk] at hlkj
          exact absurd hlkj (by simp)
      refine ⟨?_, l, hnodup, ?_, Or.inr ⟨i, [], line, rfl, ?_, ?_, ?_, ?_⟩⟩
      · intro j line1 hj
        have hj2 : Function.update s.thr i (.writing line) j = .idle line1 := hj
        by_cases hji : j = i
        · subst hji
          rw [Function.update_same] at hj2
          exact absurd hj2 (by simp)
        · rw [Function.update_noteq hji] at hj2
          exact hidle j line1 hj2
      · intro j
        show Function.update s.thr i (.writing line) j = .done ↔ j ∈ l
        by_cases hji : j = i
        · subst hji
          rw [Function.update_same]
          exact iff_of_false (by simp) hnotdone
        · rw [Function.update_noteq hji]
          exact hdone j
      · show Function.update s.thr i (.writing line) i = .writing line
        rw [Function.update_same]
      · show lines i = [] ++ line
        rw [List.nil_append]
        exact hline.symm
      · show s.out = (l.map lines).flatten ++ []
        rw [List.append_nil]
        exact hout
      · intro j rem1 hj
        have hj2 : Function.update s.thr i (.writing line) j = .writing rem1 := hj
        by_cases hji : j = i
        · exact hji
        · rw [Function.update_noteq hji] at hj2
          exact absurd hj2 (hnowrite j rem1)
  | writing rem0 =>
    rcases hdisj with ⟨hlknone, hnw, -⟩ | ⟨j, pre, rem1, hlkj, hwj, hsplit, hout, huniq⟩
    · exact absurd hst (hnw i rem0)
    · have hji : i = j := huniq i rem0 hst
      subst hji
      rw [hst] at hwj
      injection hwj with hrem
      subst hrem
      have hnotdone : i ∉ l := by
        intro hmem
        have hd := (hdone i).mpr hmem
        rw [hst] at hd
        exact absurd hd (by simp)
      cases rem0 with
      | cons c rem =>
        have hstep : threadStep s i =
            { s with out := s.out ++ [c], thr := Function.update s.thr i (.writing rem) } := by
          simp [threadStep, hst, hlkj]
        rw [hstep]
        refine ⟨?_, l, hnodup, ?_, Or.inr ⟨i, pre ++ [c], rem, ?_, ?_, ?_, ?_, ?_⟩⟩
        · intro j line1 hj
          have hj2 : Function.update s.thr i (.writing rem) j = .idle line1 := hj
          by_cases hji : j = i
          · subst hji
            rw [Function.update_same] at hj2
            exact absurd hj2 (by simp)
          · rw [Function.update_noteq hji] at hj2
            exact hidle j line1 hj2
        · intro j
          show Function.update s.thr i (.writing rem) j = .done ↔ j ∈ l
          by_cases hji : j = i
          · subst hji
            rw [Function.update_same]
            exact iff_of_false (by simp) hnotdone
          · rw [Function.update_noteq hji]
            exact hdone j
        · exact hlkj
        · show Function.update s.thr i (.writing rem) i = .writing rem
          rw [Function.update_same]
        · show lines i = (pre ++ [c]) ++ rem
          rw [hsplit]
          simp
        · show s.out ++ [c] = (l.map lines).flatten ++ (pre ++ [c])
          rw [hout, List.append_assoc]
        · intro j rem2 hj
          have hj2 : Function.update s.thr i (.writing rem) j = .writing rem2 := hj
          by_cases hji : j = i
          · exact hji
          · rw [Function.update_noteq hji] at hj2
            exact huniq j rem2 hj2
      | nil =>
        have hpre : lines i = pre := by
          rw [hsplit, List.append_nil]
        have hstep : threadStep s i =
            { s with lock := none, thr := Function.update s.thr i .done } := by
          simp [threadStep, hst, hlkj]
        rw [hstep]
        refine ⟨?_, l ++ [i], ?_, ?_, Or.inl ⟨rfl, ?_, ?_⟩⟩
        · intro j line1 hj
          have hj2 : Function.update s.thr i .done j = .idle line1 := hj
          by_cases hji : j = i
          · subst hji
            rw [Function.update_same] at hj2
            exact absurd hj2 (by simp)
          · rw [Function.update_noteq hji] at hj2
            exact hidle j line1 hj2
        · exact hnodup.append (List.nodup_singleton i) (List.disjoint_singleton.mpr hnotdone)
        · intro j
          show Function.update s.thr i .done j = .done ↔ j ∈ l ++ [i]
          by_cases hji : j = i
          · subst hji
            rw [Function.update_same]
            simp
          · rw [Function.update_noteq hji, hdone j]
            simp [hji]
        · intro j rem2 hj
          have hj2 : Function.update s.thr i .done j = .writing rem2 := hj
          by_cases hji : j = i
          · subst hji
            rw [Function.update_same] at hj2
            exact absurd hj2 (by simp)
          · rw [Function.update_noteq hji] at hj2
            exact absurd (huniq j rem2 hj2) hji
        · show s.out = ((l ++ [i]).map lines).flatten
          rw [hout, ← hpre]
          simp [List.map_append]
  | done =>
    have hstep : threadStep s i = s := by
      simp [threadStep, hst]
    rw [hstep]
    exact ⟨hidle, l, hnodup, hdone, hdisj⟩

/-- The invariant holds after running any schedule from the initial state. -/
theorem inv_runConc {n : Nat} (lines : Fin n → List Char) (sched : List (Fin n)) :
    ∀ s : Conc n, Inv lines s → Inv lines (runConc s sched) := by
  induction sched with
  | nil => exact fun s h => h
  | cons i rest ih => exact fun s h => ih _ (inv_threadStep lines s i h)

/-- In an invariant state where every thread finished, the output is the
concatenation of all N lines in some order. -/
theorem inv_allDone {n : Nat} (lines : Fin n → List Char) (s : Conc n)
    (hinv : Inv lines s) (hall : ∀ i, s.thr i = .done) :
    ∃ l : List (Fin n), l.Perm (List.finRange n) ∧ s.out = (l.map lines).flatten := by
  obtain ⟨-, l, hnodup, hdone, hdisj⟩ := hinv
  rcases hdisj with ⟨-, -, hout⟩ | ⟨i, pre, rem, -, hw, -⟩
  · refine ⟨l, (List.perm_ext_iff_of_nodup hnodup (List.nodup_finRange n)).mpr fun a => ?_, hout⟩
    exact iff_of_true ((hdone a).mp (hall a)) (List.mem_finRange a)
  · rw [hall i] at hw
    exact absurd hw (by simp)

/-- Concatenating lines that each contain exactly one newline yields one
newline per line. -/
theorem count_newline_flatten {n : Nat} (lines : Fin n → List Char)
    (h1 : ∀ i, (lines i).count '\n' = 1) :
    ∀ l : List (Fin n), ((l.map lines).flatten.count '\n') = l.length := by
  intro l
  induction l with
  | nil => rfl
  | cons i rest ih => simp [List.count_append, h1 i, ih, Nat.add_comm]

/-- Every line `Logger::log` composes ends in its single newline, provided the
timestamp, thread label and message contain none themselves. -/
theorem logLine_newline_count (dest : Inner) (time name : String) (lv : Level)
    (msg : String) (ht : '\n' ∉ time.data) (hn : '\n' ∉ name.data)
    (hm : '\n' ∉ msg.data) :
    ((logLine dest time name lv msg).data).count '\n' = 1 := by
  have ht0 : time.data.count '\n' = 0 := List.count_eq_zero.mpr ht
  have hn0 : name.data.count '\n' = 0 := List.count_eq_zero.mpr hn
  have hm0 : msg.data.count '\n' = 0 := List.count_eq_zero.mpr hm
  have e1 : (("\x1b[97m" : String).data).count '\n' = 0 := by decide
  have e2 : (("\x1b[36m" : String).data).count '\n' = 0 := by decide
  have e3 : (("\x1b[31m" : String).data).count '\n' = 0 := by decide
  have e4 : (("\x1b[33m" : String).data).count '\n' = 0 := by decide
  have e5 : ((RESET_COLOR : String).data).count '\n' = 0 := by decide
  have e6 : ((" " : String).data).count '\n' = 0 := by decide
  have e7 : ((" [" : String).data).count '\n' = 0 := by decide
  have e8 : (("]" : String).data).count '\n' = 0 := by decide
  have e9 : (("] " : String).data).count '\n' = 0 := by decide
  have e10 : (("INF" : String).data).count '\n' = 0 := by decide
  have e11 : (("DBG" : String).data).count '\n' = 0 := by decide
  have e12 : (("ERR" : String).data).count '\n' = 0 := by decide
  have e13 : (("WRN" : String).data).count '\n' = 0 := by decide
  have e14 : (("TRC" : String).data).count '\n' = 0 := by decide
  have e15 : (("\n" : String).data).count '\n' = 1 := by decide
  cases dest <;> cases lv <;>
    simp [logLine, colorLabel, String.data_append, List.count_append,
      ht0, hn0, hm0, e1, e2, e3, e4, e5, e6, e7, e8, e9, e10, e11, e12, e13, e14, e15]

/-- C9: N threads each log one record through the same Logger; a thread holds
the mutex from before its first byte until after its last, any interleaving
being chosen by the scheduler.  When every thread has finished, the
destination's content is exactly the N complete newline-terminated lines, one
per record, concatenated whole in some order — never a byte-level
interleaving — and in particular contains exactly N newlines. -/
theorem no_torn_lines {n : Nat} (dest : Inner) (time name msg : Fin n → String)
    (lv : Fin n → Level) (sched : List (Fin n))
    (hnl : ∀ i, '\n' ∉ (time i).data ∧ '\n' ∉ (name i).data ∧ '\n' ∉ (msg i).data)
    (hall : ∀ i, (runConc (initConc fun j =>
        (logLine dest (time j) (name j) (lv j) (msg j)).data) sched).thr i = .done) :
    ∃ l : List (Fin n), l.Perm (List.finRange n) ∧
      (runConc (initConc fun j =>
          (logLine dest (time j) (name j) (lv j) (msg j)).data) sched).out =
        (l.map fun j => (logLine dest (time j) (name j) (lv j) (msg j)).data).flatten ∧
      ((runConc (initConc fun j =>
          (logLine dest (time j) (name j) (lv j) (msg j)).data) sched).out.count '\n') = n := by
  have hinv := inv_runConc (fun j => (logLine dest (time j) (name j) (lv j) (msg j)).data)
    sched _ (inv_initConc _)
  obtain ⟨l, hperm, hout⟩ := inv_allDone _ _ hinv hall
  refine ⟨l, hperm, hout, ?_⟩
  rw [hout, count_newline_flatten _ (fun j => logLine_newline_count dest (time j) (name j)
    (lv j) (msg j) (hnl j).1 (hnl j).2.1 (hnl j).2.2) l, hperm.length_eq,
    List.length_finRange]

/-- C9, witness: one thread writes `00:00:00 main [INF] hi` to a Custom
destination under a 25-step schedule (acquire, 23 bytes, release); the final
content is that single complete line with its one newline. -/
theorem no_torn_lines_witness :
    ∃ l : List (Fin 1), l.Perm (List.finRange 1) ∧
      (runConc (initConc fun _ =>
          (logLine .Other "00:00:00" "main" .Info "hi").data)
        (List.replicate 25 (0 : Fin 1))).out =
        (l.map fun _ => (logLine .Other "00:00:00" "main" .Info "hi").data).flatten ∧
      ((runConc (initConc fun _ =>
          (logLine .Other "00:00:00" "main" .Info "hi").data)
        (List.replicate 25 (0 : Fin 1))).out.count '\n') = 1 :=
  no_torn_lines .Other (fun _ => "00:00:00") (fun _ => "main") (fun _ => "hi")
    (fun _ => .Info) (List.replicate 25 (0 : Fin 1))
    (fun _ => ⟨(by decide : ('\n' : Char) ∉ ("00:00:00" : String).data),
               (by decide : ('\n' : Char) ∉ ("main" : String).data),
               (by decide : ('\n' : Char) ∉ ("hi" : String).data)⟩)
    (by decide)

end LoggerLib
